import Mathlib

/-!
Shallow embedding of the cec-controller core (durable relay queue,
connection health guardian, restart supervisor, dispatch loop) and
verification of its specification claims.

Source files embedded: `interfaces.go` (CEC guardian), the queue /
restart supervisor file (`Queue`, `NewQueue` drain goroutine,
`RestartProcess`, `close`), `main.go` (dispatch loop key handling),
`power_events.go` (event data model).
-/

namespace CecController

/-! ### Event data model (power_events.go, claes/cec KeyPress) -/

/-- Go `PowerEventType` is an `int`; the four named constants are 0..3. -/
abbrev PowerEventType := Int

def PowerOnTy : PowerEventType := 0
def PowerSleepTy : PowerEventType := 1
def PowerResumeTy : PowerEventType := 2
def PowerShutdownTy : PowerEventType := 3

/-- `PowerEvent{Type PowerEventType; Active bool}` from power_events.go. -/
structure PowerEvent where
  type : PowerEventType
  active : Bool
deriving DecidableEq, Repr

/-- `cec.KeyPress{KeyCode int; Duration int}` (the fields used by main.go). -/
structure KeyPress where
  keyCode : Int
  duration : Int
deriving DecidableEq, Repr

/-- An event accepted by the durable relay queue: one of the two categories. -/
inductive Event where
  | key (kp : KeyPress)
  | power (pe : PowerEvent)
deriving DecidableEq, Repr

/-! ### A small JSON value model for `encoding/json` marshalling

The queue serializes events with `json.Marshal` and envelopes them in
`queueItem{Type string; Data json.RawMessage}`.  We model JSON documents
structurally; `RawMessage` payloads are nested documents. -/

inductive Json where
  | null
  | bool (b : Bool)
  | int (n : Int)
  | str (s : String)
  | obj (fields : List (String × Json))

/-- First binding of a key in an object's field list (marshalled output
has unique keys, so this matches Go's behaviour on such documents). -/
def jsonLookup : List (String × Json) → String → Option Json
  | [], _ => none
  | (k, v) :: rest, key => if k = key then some v else jsonLookup rest key

/-- `json.Marshal` of a `PowerEvent`. -/
def marshalPowerEvent (pe : PowerEvent) : Json :=
  .obj [("Type", .int pe.type), ("Active", .bool pe.active)]

/-- `json.Unmarshal` into a `PowerEvent`: a present field must have the
matching JSON type, a missing field keeps the zero value. -/
def unmarshalPowerEvent : Json → Option PowerEvent
  | .obj fs =>
    let ty : Option Int :=
      match jsonLookup fs "Type" with
      | none => some 0
      | some (.int n) => some n
      | some _ => none
    let ac : Option Bool :=
      match jsonLookup fs "Active" with
      | none => some false
      | some (.bool b) => some b
      | some _ => none
    match ty, ac with
    | some t, some a => some ⟨t, a⟩
    | _, _ => none
  | _ => none

/-- `json.Marshal` of a `cec.KeyPress`. -/
def marshalKeyPress (kp : KeyPress) : Json :=
  .obj [("KeyCode", .int kp.keyCode), ("Duration", .int kp.duration)]

/-- `json.Unmarshal` into a `cec.KeyPress`. -/
def unmarshalKeyPress : Json → Option KeyPress
  | .obj fs =>
    let kc : Option Int :=
      match jsonLookup fs "KeyCode" with
      | none => some 0
      | some (.int n) => some n
      | some _ => none
    let du : Option Int :=
      match jsonLookup fs "Duration" with
      | none => some 0
      | some (.int n) => some n
      | some _ => none
    match kc, du with
    | some k, some d => some ⟨k, d⟩
    | _, _ => none
  | _ => none

/-- `queueItem{Type string `json:"type"`; Data json.RawMessage `json:"data"`}`. -/
structure QueueItem where
  type : String
  data : Json

/-- Marshalling of the envelope, as stored by `EnqueueObjectAsJSON`. -/
def marshalQueueItem (qi : QueueItem) : Json :=
  .obj [("type", .str qi.type), ("data", qi.data)]

/-- `json.Unmarshal` into a `queueItem`. -/
def unmarshalQueueItem : Json → Option QueueItem
  | .obj fs =>
    let ty : Option String :=
      match jsonLookup fs "type" with
      | none => some ""
      | some (.str s) => some s
      | some _ => none
    let da : Option Json :=
      match jsonLookup fs "data" with
      | none => some .null
      | some v => some v
    match ty, da with
    | some t, some d => some ⟨t, d⟩
    | _, _ => none
  | _ => none

/-! ### Ingress: the enqueue branches of the drain goroutine (`NewQueue`)

`case pe := <-inPowerEvents` marshals the event and stores
`queueItem{Type: "power", Data: data}`; the key branch stores
`queueItem{Type: "key", Data: data}`. -/

/-- The on-disk document produced for one accepted event. -/
def encodeEvent : Event → Json
  | .power pe => marshalQueueItem ⟨"power", marshalPowerEvent pe⟩
  | .key kp => marshalQueueItem ⟨"key", marshalKeyPress kp⟩

/-! ### Egress: the `default:` dequeue branch of the drain goroutine -/

/-- Result of `queue.Dequeue()`: empty storage, a storage error (the
returned item pointer is nil), or an item with its stored bytes. -/
inductive DequeueResult where
  | empty
  | fail (e : String)
  | ok (val : Json)

/-- What one iteration of the drain loop's dequeue branch does. -/
inductive DrainOutcome where
  /-- `goque.ErrEmpty`: sleep 1ms and continue. -/
  | sleepRetry
  /-- the loop body dereferences the nil item pointer and panics,
  killing the goroutine (and, being an unrecovered panic, the process). -/
  | panicked
  /-- the item is logged and skipped; the loop continues. -/
  | skipped
  /-- the decoded event is republished on its category's output channel. -/
  | delivered (e : Event)
deriving DecidableEq, Repr

/-- One iteration of the `default:` branch of the drain goroutine in
`NewQueue`, translated statement by statement:

  item, err := queue.Dequeue()
  if errors.Is(err, goque.ErrEmpty) { sleep; continue }
  if err != nil { slog.Error(...) }            // note: no continue
  var qItem queueItem
  if err := json.Unmarshal(item.Value, &qItem); err != nil { log; continue }
  switch qItem.Type { "power" => ...; "key" => ...; default => warn }
  if err != nil { log }

On a non-`ErrEmpty` dequeue error the code logs but falls through to
`json.Unmarshal(item.Value, ...)` with `item = nil`, a nil-pointer
dereference. -/
def drainStep (r : DequeueResult) : DrainOutcome :=
  match r with
  | .empty => .sleepRetry
  | .fail _ => .panicked
  | .ok v =>
    match unmarshalQueueItem v with
    | none => .skipped
    | some qi =>
      if qi.type = "power" then
        match unmarshalPowerEvent qi.data with
        | some pe => .delivered (.power pe)
        | none => .skipped
      else if qi.type = "key" then
        match unmarshalKeyPress qi.data with
        | some kp => .delivered (.key kp)
        | none => .skipped
      else
        .skipped

/-- Drain a list of stored documents in FIFO order, collecting the two
in-memory output streams (power channel, key channel) in delivery order. -/
def drainAll : List Json → List PowerEvent × List KeyPress
  | [] => ([], [])
  | v :: rest =>
    let (ps, ks) := drainAll rest
    match drainStep (.ok v) with
    | .delivered (.power pe) => (pe :: ps, ks)
    | .delivered (.key kp) => (ps, kp :: ks)
    | _ => (ps, ks)

/-- The power-category subsequence of a list of events, in order. -/
def powerSeq (evs : List Event) : List PowerEvent :=
  evs.filterMap fun e => match e with | .power pe => some pe | .key _ => none

/-- The key-category subsequence of a list of events, in order. -/
def keySeq (evs : List Event) : List KeyPress :=
  evs.filterMap fun e => match e with | .key kp => some kp | .power _ => none

/-! ### Restart supervisor and queue shutdown (`RestartProcess`, `close`)

The observable state: whether the in-memory channels and the goque
storage are open, and whether the queue directory exists on disk. -/

/-- Observable state of a `Queue` and its on-disk directory. -/
structure QueueState where
  dir : String
  chansOpen : Bool
  fsQueueOpen : Bool
  dirExists : Bool
deriving DecidableEq, Repr

/-- `func (q *Queue) close(delete bool)`: closes all four channels and
the goque storage, then removes the directory iff `delete`. -/
def Queue.close (delete : Bool) (s : QueueState) : QueueState :=
  { s with
    chansOpen := false
    fsQueueOpen := false
    dirExists := s.dirExists && !delete }

/-- `func (q *Queue) Close()` — the graceful shutdown path. -/
def Queue.Close (s : QueueState) : QueueState :=
  Queue.close true s

def queueDirEnvVar : String := "CEC_QUEUE_DIR"

/-- An attempted `syscall.Exec(execPath, os.Args, env)` call. -/
structure ExecCall where
  path : String
  args : List String
  env : List String
deriving DecidableEq, Repr

/-- Process-level inputs of `RestartProcess`: the result of
`os.Executable()`, the parent environment `os.Environ()`, the original
command line `os.Args`, and whether `syscall.Exec` errors out. -/
structure ProcWorld where
  execPath : Option String
  environ : List String
  args : List String
  execFails : Bool

/-- How a `RestartProcess` call ends. -/
inductive RestartOutcome where
  /-- `retriesLeft <= 0`: returned `false` before doing anything. -/
  | noRetries
  /-- `os.Executable()` failed: returned `false` before doing anything. -/
  | noExecPath
  /-- `syscall.Exec` returned an error: returned `false` after closing
  the queue (without deleting it); the old image keeps running. -/
  | execFailed
  /-- `syscall.Exec` succeeded: the process image was replaced in place
  and the call never returns. -/
  | replaced
deriving DecidableEq, Repr

/-- Full result of a `RestartProcess` call: how it ended, the resulting
queue/filesystem state, and the `syscall.Exec` invocation if one was
made. -/
structure RestartResult where
  outcome : RestartOutcome
  state : QueueState
  execAttempt : Option ExecCall
deriving DecidableEq, Repr

/-- `func (q *Queue) RestartProcess(retriesLeft int) bool`, statement by
statement:

  if retriesLeft <= 0 { return false }
  execPath, err := os.Executable(); if err != nil { return false }
  q.close(false)
  env := os.Environ()
  env = append(env, queueDirEnvVar+"="+q.dir)
  env = append(env, "CEC_RESTART_RETRIES="+fmt.Sprintf("%d", retriesLeft-1))
  if err := syscall.Exec(execPath, os.Args, env); err != nil { return false }
  return true  -- unreachable: Exec only returns on error
-/
def RestartProcess (w : ProcWorld) (retriesLeft : Int) (s : QueueState) :
    RestartResult :=
  if retriesLeft ≤ 0 then
    ⟨.noRetries, s, none⟩
  else
    match w.execPath with
    | none => ⟨.noExecPath, s, none⟩
    | some path =>
      let s' := Queue.close false s
      let env := w.environ ++
        [queueDirEnvVar ++ "=" ++ s.dir,
         "CEC_RESTART_RETRIES=" ++ toString (retriesLeft - 1)]
      let call : ExecCall := ⟨path, w.args, env⟩
      if w.execFails then ⟨.execFailed, s', some call⟩
      else ⟨.replaced, s', some call⟩

/-! ### Dispatch loop: key-event handling (main.go `runController`)

  case kp := <-queue.OutKeyEvents:
    if kp == nil || kp.Duration != 0 { continue }  // ignore key release
    keyMapObj.OnKeyPress(kp.KeyCode)

The channel carries `*cec.KeyPress`, so a nil pointer is possible;
the forwarded value (if any) is the key code handed to the key-mapping
collaborator. -/
def handleKeyEvent : Option KeyPress → Option Int
  | none => none
  | some kp => if kp.duration ≠ 0 then none else some kp.keyCode

/-! ### Connection health guardian (interfaces.go)

Connection wrappers are identified by a generation number: the handle
produced by the `i`-th `cecOpener` call overall has generation `i`.
The outside world is an oracle giving the outcome of each opener call
(indexed by the number of opens made so far) and of each power command
call (indexed by the number of power calls made so far).  For a power
call, `true` models a non-nil `error` — which this library returns on
SUCCESS — and `false` models a nil result, i.e. failure. -/

structure CECWorld where
  openOk : Nat → Bool
  callOk : Nat → Bool

/-- The guardian's state: `conn` is the generation of the current
wrapper (`none` when the `conn` field is nil), `wiredGen` the handle
whose `KeyPresses` field points at the shared key-press channel,
`opens`/`calls` count the opener and power-command invocations made. -/
structure CECState where
  adapter : String
  deviceName : String
  retries : Nat
  conn : Option Nat
  wiredGen : Option Nat
  opens : Nat
  calls : Nat
deriving DecidableEq, Repr

/-- Events observable during guardian operations: lock transitions on
`connMu`, closing a handle, an opener attempt, and a power-command
invocation `callOp g addr ok` through the wrapper of generation `g`. -/
inductive CECAction where
  | rlock
  | runlock
  | wlock
  | wunlock
  | closeConn (g : Nat)
  | openAttempt (adapter deviceName : String) (g : Nat) (ok : Bool)
  | callOp (g : Nat) (addr : Int) (ok : Bool)
deriving DecidableEq, Repr

/-- `NewCECWithOpener`: clamps `connectionRetries` below 1 up to 1, then
makes a single opener call; on failure the constructor errors out, on
success the key-press channel is attached to the fresh handle. -/
def NewCECWithOpener (w : CECWorld) (adapter deviceName : String)
    (connectionRetries : Int) : Option CECState × List CECAction :=
  let retries : Int := if connectionRetries < 1 then 1 else connectionRetries
  let ok := w.openOk 0
  let acts := [CECAction.openAttempt adapter deviceName 0 ok]
  if ok then
    (some { adapter := adapter, deviceName := deviceName,
            retries := retries.toNat, conn := some 0, wiredGen := some 0,
            opens := 1, calls := 0 }, acts)
  else
    (none, acts)

/-- The retry loop of `reopen`: up to `fuel` opener attempts starting at
global attempt index `start`; returns the successful attempt's index
(which is the new handle's generation) or `none`, with the trace of
attempts made. -/
def reopenAttempts (w : CECWorld) (adapter deviceName : String)
    (start : Nat) : Nat → Option Nat × List CECAction
  | 0 => (none, [])
  | fuel + 1 =>
    let ok := w.openOk start
    let act := CECAction.openAttempt adapter deviceName start ok
    if ok then
      (some start, [act])
    else
      let rest := reopenAttempts w adapter deviceName (start + 1) fuel
      (rest.1, act :: rest.2)

/-- `func (c *CEC) reopen() error` under `connMu.Lock()`: closes the
stale handle if present, then tries `cecOpener(c.adapter, c.deviceName)`
up to `c.retries` times; on success rewires `KeyPresses` to the new
handle and installs the new wrapper; on exhaustion leaves `conn` nil and
returns `fmt.Errorf("failed to open CEC connection after %d attempts", c.retries)`. -/
def reopen (w : CECWorld) (s : CECState) :
    CECState × Except String Unit × List CECAction :=
  let closeActs : List CECAction :=
    match s.conn with
    | some g => [CECAction.closeConn g]
    | none => []
  let att := reopenAttempts w s.adapter s.deviceName s.opens s.retries
  match att.1 with
  | some g =>
    ({ s with conn := some g, wiredGen := some g, opens := g + 1 },
     .ok (),
     CECAction.wlock :: closeActs ++ att.2 ++ [CECAction.wunlock])
  | none =>
    ({ s with conn := none, wiredGen := none, opens := s.opens + s.retries },
     .error ("failed to open CEC connection after " ++ toString s.retries
       ++ " attempts"),
     CECAction.wlock :: closeActs ++ att.2 ++ [CECAction.wunlock])

/-- `func (c *CEC) powerCall(powerFunc func(int) error, address int)`:
invokes the operation under `connMu.RLock()`.  This helper exists in the
source but is never called; `power` below invokes `powerFunc` directly. -/
def powerCall (w : CECWorld) (g : Nat) (s : CECState) (address : Int) :
    CECState × Bool × List CECAction :=
  let ok := w.callOk s.calls
  ({ s with calls := s.calls + 1 }, ok,
   [CECAction.rlock, CECAction.callOp g address ok, CECAction.runlock])

/-- `func (c *CEC) power(powerFunc func(int) error, addresses ...int)`.
`g0` is the generation of the wrapper captured by the method value
(`c.conn.PowerOn` / `c.conn.Standby`) when the call began; every
`powerFunc(addr)` in the loop body — including the retry after a
`reopen` — goes through that same wrapper.  A nil result (`callOk =
false`) is a failure: the guardian reopens the connection and retries
once; a failed retry or a failed reopen aborts with a hard error. -/
def power (w : CECWorld) (g0 : Nat) (s : CECState) :
    List Int → CECState × Except String Unit × List CECAction
  | [] => (s, .ok (), [])
  | addr :: rest =>
    let r1 := w.callOk s.calls
    let a1 := CECAction.callOp g0 addr r1
    let s1 := { s with calls := s.calls + 1 }
    if r1 then
      let p := power w g0 s1 rest
      (p.1, p.2.1, a1 :: p.2.2)
    else
      let re := reopen w s1
      match re.2.1 with
      | .error e => (re.1, .error e, a1 :: re.2.2)
      | .ok _ =>
        let r2 := w.callOk re.1.calls
        let a2 := CECAction.callOp g0 addr r2
        let s3 := { re.1 with calls := re.1.calls + 1 }
        if r2 then
          let p := power w g0 s3 rest
          (p.1, p.2.1, a1 :: re.2.2 ++ a2 :: p.2.2)
        else
          (s3, .error ("failed to send PowerOn to address " ++ toString addr
            ++ " after reopening connection"),
           a1 :: re.2.2 ++ [a2])

/-- `func (c *CEC) PowerOn(addresses ...int)`: evaluates the method
value `c.conn.PowerOn` — binding the wrapper current at this moment —
and runs `power`.  `none` models the nil-interface panic that a nil
`conn` would cause. -/
def PowerOn (w : CECWorld) (s : CECState) (addresses : List Int) :
    Option (CECState × Except String Unit × List CECAction) :=
  match s.conn with
  | some g0 => some (power w g0 s addresses)
  | none => none

/-- `func (c *CEC) Standby(addresses ...int)`: same shape as `PowerOn`. -/
def Standby (w : CECWorld) (s : CECState) (addresses : List Int) :
    Option (CECState × Except String Unit × List CECAction) :=
  match s.conn with
  | some g0 => some (power w g0 s addresses)
  | none => none

/-! ### Shared sample values and helper lemmas -/

/-- A live queue state over a concrete directory. -/
def sampleQueueState : QueueState :=
  { dir := "/tmp/cec-queue", chansOpen := true, fsQueueOpen := true,
    dirExists := true }

/-- A process world where `syscall.Exec` fails (so `RestartProcess`
returns and its post-state is observable). -/
def sampleProcWorld : ProcWorld :=
  { execPath := some "/usr/bin/cec-controller",
    environ := ["HOME=/root"],
    args := ["cec-controller", "--debug"],
    execFails := true }

/-- Round trip through the storage envelope: draining an item that the
ingress goroutine stored for event `e` delivers `e` itself. -/
theorem drainStep_encode (e : Event) :
    drainStep (.ok (encodeEvent e)) = .delivered e := by
  cases e <;>
    simp [encodeEvent, marshalQueueItem, unmarshalQueueItem, jsonLookup,
      drainStep, marshalPowerEvent, unmarshalPowerEvent, marshalKeyPress,
      unmarshalKeyPress]

/-! ### Claims about the restart supervisor -/

/-- C4: for every `budgetRemaining ≤ 0`, `RestartProcess` returns
`false` immediately with no side effects: the queue state is unchanged
and no `syscall.Exec` is attempted. -/
theorem restart_nonpositive_is_pure (w : ProcWorld) (n : Int)
    (s : QueueState) (h : n ≤ 0) :
    RestartProcess w n s = ⟨.noRetries, s, none⟩ := by
  simp [RestartProcess, h]

theorem restart_nonpositive_is_pure_witness :
    RestartProcess sampleProcWorld 0 sampleQueueState =
      ⟨.noRetries, sampleQueueState, none⟩ :=
  restart_nonpositive_is_pure sampleProcWorld 0 sampleQueueState (by decide)

/-- C2: the queue directory is removed only by the graceful
`Queue.Close` (i.e. `close(true)`); a restart with positive budget
closes the queue with `delete = false`, so the on-disk log directory
still exists afterwards. -/
theorem restart_preserves_disk_log (w : ProcWorld) (n : Int)
    (s : QueueState) (h : 0 < n) :
    (RestartProcess w n s).state.dirExists = s.dirExists ∧
    (w.execPath.isSome → (RestartProcess w n s).state = Queue.close false s) ∧
    (Queue.close false s).dirExists = s.dirExists ∧
    (Queue.Close s).dirExists = false := by
  have hn : ¬ n ≤ 0 := not_le.mpr h
  unfold RestartProcess
  cases hp : w.execPath with
  | none => simp [hn, hp, Queue.close, Queue.Close]
  | some p =>
    cases hf : w.execFails <;>
      simp [hn, hp, hf, Queue.close, Queue.Close]

theorem restart_preserves_disk_log_witness :
    (RestartProcess sampleProcWorld 1 sampleQueueState).state.dirExists =
      sampleQueueState.dirExists :=
  (restart_preserves_disk_log sampleProcWorld 1 sampleQueueState
    (by decide)).1

/-- C5: a restart with positive budget attempts to replace the process
image with the original command line verbatim and the parent environment
extended by exactly the queue-directory variable and the restart-budget
variable holding `budgetRemaining - 1`. -/
theorem restart_exec_contract (w : ProcWorld) (n : Int) (s : QueueState)
    (p : String) (hn : 0 < n) (hp : w.execPath = some p) :
    (RestartProcess w n s).execAttempt =
      some ⟨p, w.args,
        w.environ ++
          [queueDirEnvVar ++ "=" ++ s.dir,
           "CEC_RESTART_RETRIES=" ++ toString (n - 1)]⟩ := by
  have hn' : ¬ n ≤ 0 := not_le.mpr hn
  cases hf : w.execFails <;> simp [RestartProcess, hn', hp, hf]

theorem restart_exec_contract_witness :
    (RestartProcess sampleProcWorld 1 sampleQueueState).execAttempt =
      some ⟨"/usr/bin/cec-controller", ["cec-controller", "--debug"],
        ["HOME=/root", "CEC_QUEUE_DIR=/tmp/cec-queue",
         "CEC_RESTART_RETRIES=0"]⟩ := by
  rw [restart_exec_contract sampleProcWorld 1 sampleQueueState
    "/usr/bin/cec-controller" (by decide) rfl]
  rfl

/-! ### Claims about the durable relay queue -/

/-- C6: for every event variant, serializing on enqueue with its type
tag and deserializing on drain delivers a value equal to the original
event. -/
theorem enqueue_drain_round_trip (e : Event) :
    drainStep (.ok (encodeEvent e)) = .delivered e :=
  drainStep_encode e

/-- C7: the drain goroutine does skip a payload-parse failure, but a
non-`ErrEmpty` storage dequeue error is fatal: the loop body goes on to
dereference the nil item pointer and panics, so the drain task does not
continue.  This contradicts the claim that every storage dequeue error
is logged and skipped. -/
theorem drain_storage_error_panics :
    drainStep (.fail "leveldb: corruption") = .panicked ∧
    drainStep (.ok (.str "garbage")) = .skipped ∧
    drainStep (.ok (.obj [("type", .str "power"), ("data", .str "oops")]))
      = .skipped := by
  refine ⟨rfl, rfl, ?_⟩
  decide

/-- C8: draining any sequence of stored events delivers, on each
category's output channel, exactly that category's subsequence in its
original enqueue order, independently of how the two categories are
interleaved. -/
theorem drain_fifo_per_category (evs : List Event) :
    drainAll (evs.map encodeEvent) = (powerSeq evs, keySeq evs) := by
  induction evs with
  | nil => simp [drainAll, powerSeq, keySeq]
  | cons e rest ih =>
    cases e with
    | power pe =>
      simp [drainAll, drainStep_encode, ih, powerSeq, keySeq,
        List.filterMap_cons]
    | key kp =>
      simp [drainAll, drainStep_encode, ih, powerSeq, keySeq,
        List.filterMap_cons]

/-! ### Claims about the dispatch loop -/

/-- C9: a key event with nonzero hold duration (a key release) is never
forwarded to the key-mapping collaborator, and one with hold duration 0
is always forwarded (with its key code). -/
theorem key_release_filter (kp : KeyPress) :
    (kp.duration ≠ 0 → handleKeyEvent (some kp) = none) ∧
    (kp.duration = 0 → handleKeyEvent (some kp) = some kp.keyCode) := by
  constructor <;> intro h <;> simp [handleKeyEvent, h]

theorem key_release_filter_witness :
    handleKeyEvent (some ⟨105, 120⟩) = none ∧
    handleKeyEvent (some ⟨105, 0⟩) = some 105 :=
  ⟨(key_release_filter ⟨105, 120⟩).1 (by decide),
   (key_release_filter ⟨105, 0⟩).2 rfl⟩

/-! ### Helper lemmas about the guardian's reconnect loop -/

/-- A world whose opener and power commands always succeed. -/
def cecAllOk : CECWorld := ⟨fun _ => true, fun _ => true⟩

/-- A world whose opener always fails and power commands always succeed. -/
def cecNeverOpens : CECWorld := ⟨fun _ => false, fun _ => true⟩

/-- A guardian state freshly produced by a successful construction with
`retries = 2`. -/
def sampleCEC : CECState :=
  { adapter := "/dev/ttyACM0", deviceName := "htpc", retries := 2,
    conn := some 0, wiredGen := some 0, opens := 1, calls := 0 }

/-- Every action in the retry loop's trace is an opener attempt with the
given adapter identity, at an attempt index within the fuel window, and
records that attempt's outcome. -/
theorem reopenAttempts_mem (w : CECWorld) (a d : String) (fuel : Nat) :
    ∀ (start : Nat) (act : CECAction),
      act ∈ (reopenAttempts w a d start fuel).2 →
      ∃ i, i < fuel ∧
        act = .openAttempt a d (start + i) (w.openOk (start + i)) := by
  induction fuel with
  | zero => intro start act h; simp [reopenAttempts] at h
  | succ fuel ih =>
    intro start act h
    cases hok : w.openOk start with
    | true =>
      simp [reopenAttempts, hok] at h
      exact ⟨0, Nat.succ_pos _, by simp [h, hok]⟩
    | false =>
      simp [reopenAttempts, hok] at h
      rcases h with h | h
      · exact ⟨0, Nat.succ_pos _, by simp [h, hok]⟩
      · obtain ⟨i, hi, he⟩ := ih (start + 1) act h
        have harith : start + 1 + i = start + (i + 1) := by omega
        refine ⟨i + 1, by omega, ?_⟩
        rw [he, harith]

/-- The retry loop reports failure exactly when it is out of fuel or the
current and all remaining attempts in its window fail. -/
theorem reopenAttempts_none (w : CECWorld) (a d : String) (fuel : Nat) :
    ∀ start : Nat, (∀ i, i < fuel → w.openOk (start + i) = false) →
      (reopenAttempts w a d start fuel).1 = none := by
  induction fuel with
  | zero => intro start _; simp [reopenAttempts]
  | succ fuel ih =>
    intro start hall
    have h0 : w.openOk start = false := by
      have := hall 0 (Nat.succ_pos _)
      simpa using this
    simp only [reopenAttempts, h0]
    simp only [Bool.false_eq_true, if_false]
    exact ih (start + 1) fun i hi => by
      have := hall (i + 1) (by omega)
      simpa [Nat.add_assoc, Nat.add_comm 1 i] using this

/-- If some attempt within the fuel window succeeds, the retry loop
reports a successful attempt index. -/
theorem reopenAttempts_isSome (w : CECWorld) (a d : String) (fuel : Nat) :
    ∀ start i : Nat, i < fuel → w.openOk (start + i) = true →
      (reopenAttempts w a d start fuel).1.isSome := by
  induction fuel with
  | zero => intro start i hi _; omega
  | succ fuel ih =>
    intro start i hi hok
    cases h0 : w.openOk start with
    | true => simp [reopenAttempts, h0]
    | false =>
      simp only [reopenAttempts, h0, Bool.false_eq_true, if_false]
      cases i with
      | zero => rw [Nat.add_zero] at hok; rw [h0] at hok; cases hok
      | succ i =>
        exact ih (start + 1) i (by omega)
          (by rw [← hok]; congr 1; omega)

/-- A successful retry-loop result carries an attempt index whose opener
call succeeded, lying inside the fuel window. -/
theorem reopenAttempts_some (w : CECWorld) (a d : String) (fuel : Nat) :
    ∀ start g : Nat, (reopenAttempts w a d start fuel).1 = some g →
      w.openOk g = true ∧ start ≤ g ∧ g < start + fuel := by
  induction fuel with
  | zero => intro start g h; simp [reopenAttempts] at h
  | succ fuel ih =>
    intro start g h
    cases h0 : w.openOk start with
    | true =>
      simp [reopenAttempts, h0] at h
      subst h
      exact ⟨h0, Nat.le_refl _, by omega⟩
    | false =>
      simp only [reopenAttempts, h0, Bool.false_eq_true, if_false] at h
      obtain ⟨hg, hle, hlt⟩ := ih (start + 1) g h
      exact ⟨hg, by omega, by omega⟩

/-- Reducing a membership in `reopen`'s trace to a membership in the
retry loop's trace, when the action is an opener attempt. -/
theorem openAttempt_mem_reopen (w : CECWorld) (s : CECState)
    (a' d' : String) (g : Nat) (ok : Bool)
    (h : CECAction.openAttempt a' d' g ok ∈ (reopen w s).2.2) :
    a' = s.adapter ∧ d' = s.deviceName ∧
    s.opens ≤ g ∧ g < s.opens + s.retries := by
  have h2 : CECAction.openAttempt a' d' g ok ∈
      (reopenAttempts w s.adapter s.deviceName s.opens s.retries).2 := by
    cases hc : s.conn <;>
      cases hres :
        (reopenAttempts w s.adapter s.deviceName s.opens s.retries).1 <;>
      simpa [reopen, hc, hres] using h
  obtain ⟨i, hi, he⟩ :=
    reopenAttempts_mem w s.adapter s.deviceName s.retries s.opens _ h2
  simp only [CECAction.openAttempt.injEq] at he
  obtain ⟨ha, hd, hg, _⟩ := he
  exact ⟨ha, hd, by omega, by omega⟩

/-- No power-command invocation ever appears inside `reopen`'s trace. -/
theorem callOp_not_mem_reopen (w : CECWorld) (s : CECState)
    (g : Nat) (a : Int) (ok : Bool) :
    CECAction.callOp g a ok ∉ (reopen w s).2.2 := by
  intro h
  have h2 : CECAction.callOp g a ok ∈
      (reopenAttempts w s.adapter s.deviceName s.opens s.retries).2 := by
    cases hc : s.conn <;>
      cases hres :
        (reopenAttempts w s.adapter s.deviceName s.opens s.retries).1 <;>
      simpa [reopen, hc, hres] using h
  obtain ⟨i, hi, he⟩ :=
    reopenAttempts_mem w s.adapter s.deviceName s.retries s.opens _ h2
  exact CECAction.noConfusion he

/-- No read-lock acquisition ever appears inside `reopen`'s trace (it
takes the exclusive lock). -/
theorem rlock_not_mem_reopen (w : CECWorld) (s : CECState) :
    CECAction.rlock ∉ (reopen w s).2.2 := by
  intro h
  have h2 : CECAction.rlock ∈
      (reopenAttempts w s.adapter s.deviceName s.opens s.retries).2 := by
    cases hc : s.conn <;>
      cases hres :
        (reopenAttempts w s.adapter s.deviceName s.opens s.retries).1 <;>
      simpa [reopen, hc, hres] using h
  obtain ⟨i, hi, he⟩ :=
    reopenAttempts_mem w s.adapter s.deviceName s.retries s.opens _ h2
  exact CECAction.noConfusion he

/-! ### Claims about the connection health guardian's reconnect -/

/-- C3: construction clamps a configured retry budget below 1 up to 1;
`reopen` closes the stale handle, makes opener attempts only with the
guardian's own adapter identity and only within a window of `retries`
attempts, on the first success installs the fresh handle and rewires the
key-press sink to it, and on exhausting every attempt returns the hard
error, leaving no connection. -/
theorem reconnect_contract :
    (∀ (w : CECWorld) (a d : String) (r : Int), w.openOk 0 = true →
        ∃ s0, (NewCECWithOpener w a d r).1 = some s0 ∧
          (r < 1 → s0.retries = 1) ∧ (1 ≤ r → (s0.retries : Int) = r) ∧
          s0.conn = some 0 ∧ s0.wiredGen = some 0) ∧
    (∀ (w : CECWorld) (s : CECState) (g : Nat), s.conn = some g →
        CECAction.closeConn g ∈ (reopen w s).2.2) ∧
    (∀ (w : CECWorld) (s : CECState) (a d : String) (g : Nat) (ok : Bool),
        CECAction.openAttempt a d g ok ∈ (reopen w s).2.2 →
        a = s.adapter ∧ d = s.deviceName ∧
        s.opens ≤ g ∧ g < s.opens + s.retries) ∧
    (∀ (w : CECWorld) (s : CECState) (i : Nat),
        i < s.retries → w.openOk (s.opens + i) = true →
        (reopen w s).2.1 = .ok () ∧
        ∃ g, (reopen w s).1.conn = some g ∧
          (reopen w s).1.wiredGen = some g ∧ w.openOk g = true) ∧
    (∀ (w : CECWorld) (s : CECState),
        (∀ i, i < s.retries → w.openOk (s.opens + i) = false) →
        (reopen w s).2.1 = .error ("failed to open CEC connection after "
          ++ toString s.retries ++ " attempts") ∧
        (reopen w s).1.conn = none) := by
  refine ⟨?_, ?_, ?_, ?_, ?_⟩
  · intro w a d r hok
    refine ⟨CECState.mk a d (if r < 1 then (1 : Int) else r).toNat
      (some 0) (some 0) 1 0, ?_, ?_, ?_, rfl, rfl⟩
    · simp [NewCECWithOpener, hok]
    · intro hr
      simp [hr]
    · intro h1
      have hr : ¬ r < 1 := by omega
      simp [hr]
      omega
  · intro w s g hc
    cases hres :
        (reopenAttempts w s.adapter s.deviceName s.opens s.retries).1 <;>
      simp [reopen, hc, hres]
  · intro w s a d g ok h
    exact openAttempt_mem_reopen w s a d g ok h
  · intro w s i hi hok
    have hsome := reopenAttempts_isSome w s.adapter s.deviceName s.retries
      s.opens i hi hok
    obtain ⟨g, hg⟩ := Option.isSome_iff_exists.mp hsome
    have hspec := reopenAttempts_some w s.adapter s.deviceName s.retries
      s.opens g hg
    refine ⟨?_, g, ?_, ?_, hspec.1⟩ <;> simp [reopen, hg]
  · intro w s hall
    have hnone := reopenAttempts_none w s.adapter s.deviceName s.retries
      s.opens hall
    constructor <;> simp [reopen, hnone]

theorem reconnect_contract_witness :
    (reopen cecAllOk sampleCEC).2.1 = Except.ok () ∧
    (∃ s0, (NewCECWithOpener cecAllOk "/dev/ttyACM0" "htpc" (-3)).1
        = some s0 ∧ s0.retries = 1) ∧
    (reopen cecNeverOpens sampleCEC).1.conn = none := by
  refine ⟨(reconnect_contract.2.2.2.1 cecAllOk sampleCEC 0 (by decide)
    rfl).1, ?_, ?_⟩
  · obtain ⟨s0, hs, hclamp, _⟩ :=
      reconnect_contract.1 cecAllOk "/dev/ttyACM0" "htpc" (-3) rfl
    exact ⟨s0, hs, hclamp (by decide)⟩
  · exact (reconnect_contract.2.2.2.2 cecNeverOpens sampleCEC
      (fun i _ => rfl)).2

/-- A world whose opener always succeeds and whose first power command
fails (a nil result) while every later one succeeds. -/
def cecFailOnce : CECWorld := ⟨fun _ => true, fun i => i != 0⟩

/-- Every action in a `power` run's trace is either a power-command
invocation through the captured wrapper generation `g0`, or part of the
trace of some `reopen` call. -/
theorem power_trace_shape (w : CECWorld) (g0 : Nat) :
    ∀ (addrs : List Int) (s : CECState) (act : CECAction),
      act ∈ (power w g0 s addrs).2.2 →
      (∃ a ok, act = .callOp g0 a ok) ∨
      (∃ s', act ∈ (reopen w s').2.2) := by
  intro addrs
  induction addrs with
  | nil => intro s act h; simp [power] at h
  | cons addr rest ih =>
    intro s act h
    cases hr1 : w.callOk s.calls with
    | true =>
      simp only [power, hr1, eq_self_iff_true, if_true] at h
      rcases List.mem_cons.mp h with h | h
      · exact Or.inl ⟨addr, true, h⟩
      · exact ih _ act h
    | false =>
      simp only [power, hr1, Bool.false_eq_true, if_false] at h
      cases hre : (reopen w { s with calls := s.calls + 1 }).2.1 with
      | error e =>
        simp only [hre] at h
        rcases List.mem_cons.mp h with h | h
        · exact Or.inl ⟨addr, false, h⟩
        · exact Or.inr ⟨_, h⟩
      | ok u =>
        cases u
        simp only [hre] at h
        cases hr2 :
            w.callOk (reopen w { s with calls := s.calls + 1 }).1.calls with
        | true =>
          simp only [hr2, eq_self_iff_true, if_true] at h
          rcases List.mem_cons.mp h with h | h
          · exact Or.inl ⟨addr, false, h⟩
          rcases List.mem_append.mp h with h | h
          · exact Or.inr ⟨_, h⟩
          rcases List.mem_cons.mp h with h | h
          · exact Or.inl ⟨addr, true, h⟩
          · exact ih _ act h
        | false =>
          simp only [hr2, Bool.false_eq_true, if_false] at h
          rcases List.mem_cons.mp h with h | h
          · exact Or.inl ⟨addr, false, h⟩
          rcases List.mem_append.mp h with h | h
          · exact Or.inr ⟨_, h⟩
          · exact Or.inl ⟨addr, false, List.mem_singleton.mp h⟩

/-- Every power-command invocation in a `power` run goes through the
wrapper generation `g0` captured when the run began. -/
theorem power_calls_use_g0 (w : CECWorld) (g0 : Nat)
    (addrs : List Int) (s : CECState) (g : Nat) (a : Int) (ok : Bool)
    (h : CECAction.callOp g a ok ∈ (power w g0 s addrs).2.2) : g = g0 := by
  rcases power_trace_shape w g0 addrs s _ h with ⟨a', ok', he⟩ | ⟨s', hmem⟩
  · injection he with h1 h2 h3
  · exact absurd hmem (callOp_not_mem_reopen w s' g a ok)

/-- `power` never takes the read lock. -/
theorem rlock_not_mem_power (w : CECWorld) (g0 : Nat) (s : CECState)
    (addrs : List Int) : CECAction.rlock ∉ (power w g0 s addrs).2.2 := by
  intro h
  rcases power_trace_shape w g0 addrs s _ h with ⟨a', ok', he⟩ | ⟨s', hmem⟩
  · exact CECAction.noConfusion he
  · exact absurd hmem (rlock_not_mem_reopen w s')

/-- C10: `PowerOn`/`Standby` bind the wrapper that is current when the
call begins and run the whole loop — including the retry made after a
mid-call reconnect — through that same wrapper generation; the fresh
connection installed by `reopen` is only picked up by later calls.  A
call with an empty address list succeeds without invoking anything. -/
theorem power_uses_wrapper_bound_at_call_start :
    (∀ (w : CECWorld) (s : CECState) (g0 : Nat) (addrs : List Int),
        s.conn = some g0 →
        PowerOn w s addrs = some (power w g0 s addrs) ∧
        Standby w s addrs = some (power w g0 s addrs)) ∧
    (∀ (w : CECWorld) (g0 : Nat) (s : CECState) (addrs : List Int)
        (g : Nat) (a : Int) (ok : Bool),
        CECAction.callOp g a ok ∈ (power w g0 s addrs).2.2 → g = g0) ∧
    (∀ (w : CECWorld) (g0 : Nat) (s : CECState),
        power w g0 s [] = (s, .ok (), [])) :=
  ⟨fun w s g0 addrs h => by constructor <;> simp [PowerOn, Standby, h],
   fun w g0 s addrs => power_calls_use_g0 w g0 addrs s,
   fun _ _ _ => rfl⟩

theorem power_uses_wrapper_bound_at_call_start_witness :
    PowerOn cecFailOnce sampleCEC [0] =
      some (power cecFailOnce 0 sampleCEC [0]) ∧
    (0 : Nat) = 0 ∧
    power cecFailOnce 0 sampleCEC [] = (sampleCEC, .ok (), []) :=
  ⟨(power_uses_wrapper_bound_at_call_start.1 cecFailOnce sampleCEC 0 [0]
      rfl).1,
   power_uses_wrapper_bound_at_call_start.2.1 cecFailOnce 0 sampleCEC [0]
     0 0 false (by decide),
   power_uses_wrapper_bound_at_call_start.2.2 cecFailOnce 0 sampleCEC⟩

/-! ### Claims about issuing power commands through the guardian -/

/-- With every command result non-nil (success under the library's
inverted polarity), `power` makes exactly one invocation per address, in
order, performs no reconnect, and succeeds. -/
theorem power_all_success (w : CECWorld) (g0 : Nat)
    (hall : ∀ i, w.callOk i = true) :
    ∀ (addrs : List Int) (s : CECState),
      power w g0 s addrs =
        ({ s with calls := s.calls + addrs.length }, .ok (),
         addrs.map fun a => CECAction.callOp g0 a true) := by
  intro addrs
  induction addrs with
  | nil => intro s; simp [power]
  | cons addr rest ih =>
    intro s
    rw [power]
    simp only [hall s.calls, eq_self_iff_true, if_true]
    rw [ih { s with calls := s.calls + 1 }]
    have harith : s.calls + 1 + rest.length = s.calls + (rest.length + 1) := by
      omega
    simp only [List.length_cons, List.map_cons, harith, hall s.calls]

/-- When the first command on an address returns nil (failure), `power`
reconnects and then retries exactly once: the reopen error propagates, a
successful retry continues, a failed retry is the hard error. -/
theorem power_retry_once (w : CECWorld) (g0 : Nat) (s : CECState)
    (addr : Int) (h1 : w.callOk s.calls = false) :
    (∀ e, (reopen w { s with calls := s.calls + 1 }).2.1 = .error e →
        power w g0 s [addr] =
          ((reopen w { s with calls := s.calls + 1 }).1, .error e,
           CECAction.callOp g0 addr false ::
             (reopen w { s with calls := s.calls + 1 }).2.2)) ∧
    ((reopen w { s with calls := s.calls + 1 }).2.1 = .ok () →
      w.callOk (reopen w { s with calls := s.calls + 1 }).1.calls = true →
        power w g0 s [addr] =
          ({ (reopen w { s with calls := s.calls + 1 }).1 with
              calls := (reopen w { s with calls := s.calls + 1 }).1.calls + 1 },
           .ok (),
           CECAction.callOp g0 addr false ::
             (reopen w { s with calls := s.calls + 1 }).2.2 ++
               [CECAction.callOp g0 addr true])) ∧
    ((reopen w { s with calls := s.calls + 1 }).2.1 = .ok () →
      w.callOk (reopen w { s with calls := s.calls + 1 }).1.calls = false →
        power w g0 s [addr] =
          ({ (reopen w { s with calls := s.calls + 1 }).1 with
              calls := (reopen w { s with calls := s.calls + 1 }).1.calls + 1 },
           .error ("failed to send PowerOn to address " ++ toString addr
             ++ " after reopening connection"),
           CECAction.callOp g0 addr false ::
             (reopen w { s with calls := s.calls + 1 }).2.2 ++
               [CECAction.callOp g0 addr false])) := by
  refine ⟨?_, ?_, ?_⟩
  · intro e he
    rw [power]
    simp only [h1, Bool.false_eq_true, if_false, he]
  · intro hok hr2
    rw [power]
    simp only [h1, Bool.false_eq_true, if_false, hok, hr2,
      eq_self_iff_true, if_true, power]
  · intro hok hr2
    rw [power]
    simp only [h1, Bool.false_eq_true, if_false, hok, hr2]

/-- C1 (amended): `power` invokes the underlying operation directly,
without ever holding the read lock (the read-locking helper exists in
the source but is unused); it applies the inverted polarity exactly — a
non-nil result is success and triggers no reconnect, a nil result makes
it synchronously reconnect and retry that address exactly once — and a
failed retry or failed reconnect is a hard error. -/
theorem power_contract_unlocked :
    (∀ (w : CECWorld) (g0 : Nat) (s : CECState) (addrs : List Int),
        (∀ i, w.callOk i = true) →
        power w g0 s addrs =
          ({ s with calls := s.calls + addrs.length }, .ok (),
           addrs.map fun a => CECAction.callOp g0 a true)) ∧
    (∀ (w : CECWorld) (g0 : Nat) (s : CECState) (addr : Int),
        w.callOk s.calls = false →
        (∀ e, (reopen w { s with calls := s.calls + 1 }).2.1 = .error e →
          power w g0 s [addr] =
            ((reopen w { s with calls := s.calls + 1 }).1, .error e,
             CECAction.callOp g0 addr false ::
               (reopen w { s with calls := s.calls + 1 }).2.2)) ∧
        ((reopen w { s with calls := s.calls + 1 }).2.1 = .ok () →
          w.callOk (reopen w { s with calls := s.calls + 1 }).1.calls = true →
            power w g0 s [addr] =
              ({ (reopen w { s with calls := s.calls + 1 }).1 with
                  calls :=
                    (reopen w { s with calls := s.calls + 1 }).1.calls + 1 },
               .ok (),
               CECAction.callOp g0 addr false ::
                 (reopen w { s with calls := s.calls + 1 }).2.2 ++
                   [CECAction.callOp g0 addr true])) ∧
        ((reopen w { s with calls := s.calls + 1 }).2.1 = .ok () →
          w.callOk (reopen w { s with calls := s.calls + 1 }).1.calls
              = false →
            power w g0 s [addr] =
              ({ (reopen w { s with calls := s.calls + 1 }).1 with
                  calls :=
                    (reopen w { s with calls := s.calls + 1 }).1.calls + 1 },
               .error ("failed to send PowerOn to address " ++ toString addr
                 ++ " after reopening connection"),
               CECAction.callOp g0 addr false ::
                 (reopen w { s with calls := s.calls + 1 }).2.2 ++
                   [CECAction.callOp g0 addr false]))) ∧
    (∀ (w : CECWorld) (g0 : Nat) (s : CECState) (addrs : List Int),
        CECAction.rlock ∉ (power w g0 s addrs).2.2) :=
  ⟨fun w g0 s addrs hall => power_all_success w g0 hall addrs s,
   fun w g0 s addr h1 => power_retry_once w g0 s addr h1,
   fun w g0 s addrs => rlock_not_mem_power w g0 s addrs⟩

theorem power_contract_unlocked_witness :
    power cecAllOk 0 sampleCEC [0, 1] =
      ({ sampleCEC with calls := 2 }, .ok (),
       [CECAction.callOp 0 0 true, CECAction.callOp 0 1 true]) := by
  rw [power_contract_unlocked.1 cecAllOk 0 sampleCEC [0, 1] (fun _ => rfl)]
  rfl

/-- C1 (as stated) fails on the code: this concrete `power` run invokes
the power command, yet its whole trace contains no read-lock
acquisition; by contrast the unused source helper `powerCall` does take
the read lock around the invocation. -/
theorem power_without_read_lock_counterexample :
    (power cecAllOk 0 sampleCEC [0]).2.2 = [CECAction.callOp 0 0 true] ∧
    CECAction.rlock ∉ (power cecAllOk 0 sampleCEC [0]).2.2 ∧
    CECAction.rlock ∈ (powerCall cecAllOk 0 sampleCEC 0).2.2 := by
  decide

end CecController
